import Mathlib

/-!
Verification of the biomolecule attachment and reaction engine of the
gene-expression-essentials simulation.  The development shallowly embeds the
relevant JavaScript source files: the segment geometry model
(FlatSegment add / remove / advance / advanceAndRemove), the DNA attachment
site resolver (DnaMolecule.considerProposalFromBiomolecule and
eliminateInvalidAttachmentSites), the per-molecule attached states
(AttachedAndConformingState, RibosomeAttachedState,
MRnaDestroyerAttachedState), the top-level model step
(ManualGeneExpressionModel.step) and the whole-cell stochastic simulator
(CellProteinSynthesisSimulator.conductReaction).  JavaScript numbers are
modelled as rationals; mutation is modelled by explicit state passing.
-/

/-- Kind of a shape segment: flat (zero height, linear capacity) or square
(wound).  Mirrors the FlatSegment / SquareSegment split of the source. -/
inductive SegKind where
  | flat
  | square
deriving DecidableEq, Repr

/-- A shape segment, projected to the data that the length-bookkeeping
operations consult: its kind, its capacity and its contained length.  For a
flat segment the contained length is the width of its bounds rectangle
(FlatSegment.getContainedLength); the geometric position of the bounds is
irrelevant to every claim and is projected away. -/
structure Seg where
  kind : SegKind
  capacity : ℚ
  len : ℚ
deriving DecidableEq, Repr

/-- Modelled from the spec: the ShapeSegment base class (which holds the
shared floating-point comparison constant used by the segment operations) is
not under src/.  The spec mandates one shared epsilon constant used uniformly
for near-zero length comparisons; the representative positive value 1e-7 is
used. -/
def FLOATING_POINT_COMP_FACTOR : ℚ := 1 / 10000000

/-- Modelled from the spec: the default capacity a newly constructed
ShapeSegment carries (the base class is not under src/).  The spec treats a
fresh flat segment's capacity as effectively unbounded until explicitly set;
a value representative of the largest JavaScript double is used. -/
def DEFAULT_SEGMENT_CAPACITY : ℚ := 10 ^ 308

/-- Modelled from the spec: SquareSegment is not under src/.  Per the spec's
segment-split law, the overflow pushed out of a flat segment is contained
entirely in the single newly created successor segment, so the modelled
square segment simply holds the length given to it.  Its capacity field is
never consulted by the modelled operations. -/
def mkSquareSegment (l : ℚ) : Seg :=
  { kind := SegKind.square, capacity := 0, len := l }

/-- A freshly constructed FlatSegment: zero contained length, default
capacity (FlatSegment constructor creates zero-width bounds). -/
def mkFlatSegment : Seg :=
  { kind := SegKind.flat, capacity := DEFAULT_SEGMENT_CAPACITY, len := 0 }

/-- ShapeSegment.getRemainingCapacity: capacity minus contained length. -/
def segRemainingCapacity (s : Seg) : ℚ := s.capacity - s.len

/-- FlatSegment.maxOutLength: set the contained length to exactly the
capacity without creating any new segments. -/
def segMaxOut (s : Seg) : Seg := { s with len := s.capacity }

/-- The add operation of a single segment, as the list splice that replaces
the segment in the strand's segment list.  For a flat segment this is
FlatSegment.add: if the new length exceeds the capacity, growth is clamped at
the remaining capacity and the excess is put into a new square segment
inserted immediately after this one; otherwise the segment simply grows.  For
a square segment the length is absorbed (modelled from the spec, see
mkSquareSegment). -/
def segAddSplice (s : Seg) (length : ℚ) : List Seg :=
  match s.kind with
  | SegKind.flat =>
    if s.capacity < s.len + length then
      [{ s with len := s.capacity }, mkSquareSegment (length - (s.capacity - s.len))]
    else
      [{ s with len := s.len + length }]
  | SegKind.square => [{ s with len := s.len + length }]

/-- FlatSegment.remove as a list splice: shrink the contained length by the
given amount; if the remaining length has fallen below the shared comparison
epsilon, the segment is deleted from the list. -/
def segRemoveSplice (s : Seg) (length : ℚ) : List Seg :=
  if s.len - length < FLOATING_POINT_COMP_FACTOR then [] else [{ s with len := s.len - length }]

/-- FlatSegment.add on the strand's segment list, with the receiving segment
given as the focus of a zipper (segments before it, the segment itself,
segments after it). -/
def flatSegmentAdd (before : List Seg) (cur : Seg) (after : List Seg) (length : ℚ) : List Seg :=
  before ++ segAddSplice cur length ++ after

/-- FlatSegment.remove on the strand's segment list. -/
def flatSegmentRemove (before : List Seg) (cur : Seg) (after : List Seg) (length : ℚ) : List Seg :=
  before ++ segRemoveSplice cur length ++ after

/-- FlatSegment.advance on the strand's segment list.  The output segment is
the previous list item, the input segment the next one.  Returns none exactly
when the source would dereference a null output segment (no previous item in
a branch that calls outputSegment.add). -/
def flatSegmentAdvance (before : List Seg) (cur : Seg) (after : List Seg) (length : ℚ) :
    Option (List Seg) :=
  match after with
  | [] =>
    -- No input segment: the strand's end is in this segment, so it shrinks
    -- and the output segment grows by the same (clamped) amount.
    match before.getLast? with
    | none => none
    | some output =>
      let lengthToAdvance := min length cur.len
      some (before.dropLast ++ segAddSplice output lengthToAdvance
        ++ segRemoveSplice cur lengthToAdvance ++ [])
  | input :: rest =>
    if length < input.len then
      if cur.len + length ≤ cur.capacity then
        -- The input segment has enough length and this segment can grow.
        some (before ++ segAddSplice cur length ++ segRemoveSplice input length ++ rest)
      else
        -- This segment is full or close to full; some or all of the length
        -- goes to the output segment.
        let remainingCapacity := segRemainingCapacity cur
        if FLOATING_POINT_COMP_FACTOR < remainingCapacity then
          -- Not quite full: max it out and push the rest into a new leader
          -- segment inserted at the front.
          some (before ++ segAddSplice mkFlatSegment (length - remainingCapacity)
            ++ [segMaxOut cur] ++ segRemoveSplice input length ++ rest)
        else
          match before.getLast? with
          | none => none
          | some output =>
            some (before.dropLast ++ segAddSplice output (length - remainingCapacity)
              ++ [cur] ++ segRemoveSplice input length ++ rest)
    else
      -- The input segment does not hold the full advancement length: drain
      -- it completely and shrink this segment by the remainder.
      match before.getLast? with
      | none => none
      | some output =>
        some (before.dropLast ++ segAddSplice output length
          ++ segRemoveSplice cur (length - input.len)
          ++ segRemoveSplice input input.len ++ rest)

/-- FlatSegment.advanceAndRemove on the strand's segment list: the
consumption-only variant used during destruction; no new capacity is
created. -/
def flatSegmentAdvanceAndRemove (before : List Seg) (cur : Seg) (after : List Seg) (length : ℚ) :
    List Seg :=
  match after with
  | [] => before ++ segRemoveSplice cur (min length cur.len) ++ []
  | input :: rest =>
    if length < input.len then
      before ++ [cur] ++ segRemoveSplice input length ++ rest
    else
      before ++ segRemoveSplice cur (length - input.len)
        ++ segRemoveSplice input input.len ++ rest

/-- Total contained length of a segment list (the strand's tracked total
length equals this sum when the invariant holds). -/
def sumLen (l : List Seg) : ℚ := (l.map Seg.len).sum

/-- The molecule currently occupying an attachment site
(attachedOrAttachingMoleculeProperty), projected to its identity and its
position (the data the resolver consults). -/
structure Occupant where
  id : ℕ
  position : ℚ × ℚ
deriving DecidableEq, Repr

/-- A DNA attachment site: its location, its affinity, the molecule attached
or attaching to it (if any), and whether that molecule has actually arrived
(AttachmentSite.isMoleculeAttached). -/
structure AttachmentSite where
  location : ℚ × ℚ
  affinity : ℚ
  occupant : Option Occupant
  moleculeAttached : Bool
deriving DecidableEq, Repr

/-- A gene as seen by the resolver's pursuit pass: whether the requesting
molecule may attach to it (the isOkayToAttach callback) and its matching
attachment site (the getAttachmentSite callback). -/
structure Gene where
  okToAttach : Bool
  matchingSite : AttachmentSite
deriving DecidableEq, Repr

/-- A molecule returned by the model's getOverlappingBiomolecules query,
projected to the two facts eliminateInvalidAttachmentSites consults: whether
it is attached to the DNA and whether it is the requesting molecule
itself. -/
structure OverlappingMolecule where
  attachedToDna : Bool
  isSelf : Bool
deriving DecidableEq, Repr

/-- The distance function of the external DOT Vector2 library, supplied as a
parameter of the embedding (the core never inspects its internals). -/
abbrev DistFn := (ℚ × ℚ) → (ℚ × ℚ) → ℚ

/-- A distance function agreeing with the Euclidean distance of the source's
Vector2.distance on points that share a y coordinate (the absolute difference
of the x coordinates, written with an explicit comparison); used to build
concrete scenarios with exact rational distances. -/
def distX : DistFn := fun p q => if p.1 ≤ q.1 then q.1 - p.1 else p.1 - q.1

/-- The first pass of DnaMolecule.considerProposalFromBiomolecule: enumerate
the base pairs, keep the sites whose location is within the maximum attach
distance of the requesting molecule, and of those keep the unoccupied ones.
Each base pair is given as the location used for the range check paired with
the site the getAttachSiteForBasePair callback returns for it. -/
def inRangeUnoccupiedSites (dist : DistFn) (biomoleculePosition : ℚ × ℚ)
    (maxAttachDistance : ℚ) (basePairSites : List ((ℚ × ℚ) × AttachmentSite)) :
    List AttachmentSite :=
  ((basePairSites.filter fun p =>
      decide (dist p.1 biomoleculePosition ≤ maxAttachDistance)).map Prod.snd).filter
    fun s => s.occupant = none

/-- One iteration of the gene-pursuit loop of
DnaMolecule.considerProposalFromBiomolecule: if attachment to the gene is
allowed, an unoccupied matching site is added to the candidate list; a
matching site whose occupant is still attaching (not yet attached) is
pre-empted — the occupant is forced to abort (recorded in the second
component) and the site added — exactly when the requesting molecule is
strictly closer to the site than the occupant. -/
def genePursuitStep (dist : DistFn) (biomoleculePosition : ℚ × ℚ)
    (acc : List AttachmentSite × List Occupant) (g : Gene) :
    List AttachmentSite × List Occupant :=
  if g.okToAttach then
    match g.matchingSite.occupant with
    | none => (acc.1 ++ [g.matchingSite], acc.2)
    | some occ =>
      if g.matchingSite.moleculeAttached then acc
      else
        let thisDistance := dist biomoleculePosition g.matchingSite.location
        let thatDistance := dist occ.position g.matchingSite.location
        if thisDistance < thatDistance then
          (acc.1 ++ [g.matchingSite], acc.2 ++ [occ])
        else acc
  else acc

/-- The candidate set of DnaMolecule.considerProposalFromBiomolecule before
invalid sites are eliminated, together with the occupants whose pending
attachments were aborted while it was built: the in-range unoccupied sites,
extended by the gene-pursuit pass exactly when no in-range site was found and
the strand is configured to pursue attachments. -/
def proposalCandidates (dist : DistFn) (biomoleculePosition : ℚ × ℚ)
    (maxAttachDistance : ℚ) (basePairSites : List ((ℚ × ℚ) × AttachmentSite))
    (pursueAttachments : Bool) (genes : List Gene) :
    List AttachmentSite × List Occupant :=
  let potentialAttachmentSites :=
    inRangeUnoccupiedSites dist biomoleculePosition maxAttachDistance basePairSites
  if potentialAttachmentSites.isEmpty && pursueAttachments then
    genes.foldl (genePursuitStep dist biomoleculePosition) (potentialAttachmentSites, [])
  else (potentialAttachmentSites, [])

/-- DnaMolecule.eliminateInvalidAttachmentSites: filter out the sites at
which the molecule, once translated there, would be out of its motion bounds
or would overlap another molecule (other than itself) already attached to the
DNA.  The geometric in-bounds test and the overlap query are external (shape
library and container model) and are supplied as parameters. -/
def eliminateInvalidAttachmentSites (inBounds : AttachmentSite → Bool)
    (overlapping : AttachmentSite → List OverlappingMolecule)
    (potentialAttachmentSites : List AttachmentSite) : List AttachmentSite :=
  potentialAttachmentSites.filter fun s =>
    inBounds s && !((overlapping s).any fun m => m.attachedToDna && !m.isSelf)

/-- The candidate set that remains after eliminateInvalidAttachmentSites. -/
def filteredCandidates (dist : DistFn) (biomoleculePosition : ℚ × ℚ)
    (maxAttachDistance : ℚ) (basePairSites : List ((ℚ × ℚ) × AttachmentSite))
    (pursueAttachments : Bool) (genes : List Gene)
    (inBounds : AttachmentSite → Bool)
    (overlapping : AttachmentSite → List OverlappingMolecule) :
    List AttachmentSite :=
  eliminateInvalidAttachmentSites inBounds overlapping
    (proposalCandidates dist biomoleculePosition maxAttachDistance basePairSites
      pursueAttachments genes).1

/-- The scoring used when sorting candidates: affinity divided by the
distance from the requesting molecule's position (captured as attachLocation)
to the site's location, raised to the exponent 1. -/
def siteScore (dist : DistFn) (attachLocation : ℚ × ℚ) (s : AttachmentSite) : ℚ :=
  s.affinity / dist attachLocation s.location

/-- Stable insertion of a site into a list already sorted by descending
score, mirroring the comparator of considerProposalFromBiomolecule (the
inserted site precedes every site it does not score strictly below; ties keep
the earlier-enumerated site first, matching the stable Array sort). -/
def insertSiteSorted (dist : DistFn) (attachLocation : ℚ × ℚ) (s : AttachmentSite) :
    List AttachmentSite → List AttachmentSite
  | [] => [s]
  | t :: ts =>
    if siteScore dist attachLocation s < siteScore dist attachLocation t then
      t :: insertSiteSorted dist attachLocation s ts
    else s :: t :: ts

/-- The stable sort of the candidate list by descending affinity-over-
distance score (the comparator of considerProposalFromBiomolecule applied by
the stable Array sort). -/
def sortSitesByScore (dist : DistFn) (attachLocation : ℚ × ℚ) :
    List AttachmentSite → List AttachmentSite
  | [] => []
  | s :: ss => insertSiteSorted dist attachLocation s (sortSitesByScore dist attachLocation ss)

/-- DnaMolecule.considerProposalFromBiomolecule.  Returns the chosen
attachment site (none when no acceptable site remains) together with the
occupants whose pending attachments were forcibly aborted during the
gene-pursuit pass. -/
def considerProposalFromBiomolecule (dist : DistFn) (biomoleculePosition : ℚ × ℚ)
    (maxAttachDistance : ℚ) (basePairSites : List ((ℚ × ℚ) × AttachmentSite))
    (pursueAttachments : Bool) (genes : List Gene)
    (inBounds : AttachmentSite → Bool)
    (overlapping : AttachmentSite → List OverlappingMolecule) :
    Option AttachmentSite × List Occupant :=
  let pursued := proposalCandidates dist biomoleculePosition maxAttachDistance
    basePairSites pursueAttachments genes
  let filtered := eliminateInvalidAttachmentSites inBounds overlapping pursued.1
  if filtered.isEmpty then (none, pursued.2)
  else ((sortSitesByScore dist biomoleculePosition filtered).head?, pursued.2)

/-- An attachment site as seen from inside an attached state's step: the
identity of the molecule attached or attaching to it
(attachedOrAttachingMoleculeProperty). -/
structure BoundSite where
  occupant : Option ℕ
deriving DecidableEq, Repr

/-- RNA_TRANSLATION_RATE of RibosomeAttachedState, in picometers per
second. -/
def RNA_TRANSLATION_RATE : ℚ := 750

/-- CLEAR_RNA_ATTACHMENT_LENGTH of RibosomeAttachedState: the translated
length past which a new biomolecule may attach to the mRNA. -/
def CLEAR_RNA_ATTACHMENT_LENGTH : ℚ := 700

/-- The translation rate chosen by RibosomeAttachedState.step: the fixed rate
scaled by 0.4 while the mRNA is still being synthesized, the full fixed rate
otherwise.  (The source literal 0.4 is the rational 2/5 here; the double
nearest to 0.4 differs from it only below the claims' granularity.) -/
def ribosomeTranslationRate (mRnaBeingSynthesized : Bool) : ℚ :=
  if mRnaBeingSynthesized then RNA_TRANSLATION_RATE * (2 / 5) else RNA_TRANSLATION_RATE

/-- The state read and written by RibosomeAttachedState.step: the state
machine's attachment site, the ribosome's identity, the length of mRNA
translated so far, the transcript's full length, and whether the transcript
is still being synthesized. -/
structure RibosomeStepState where
  attachmentSite : Option BoundSite
  ribosomeId : ℕ
  lengthTranslated : ℚ
  mRnaLength : ℚ
  mRnaBeingSynthesized : Bool
deriving DecidableEq, Repr

/-- The outcome of one RibosomeAttachedState.step call. -/
structure RibosomeStepResult where
  attachmentSite : Option BoundSite
  lengthTranslated : ℚ
  translationAdvanced : ℚ
  detached : Bool
deriving DecidableEq, Repr

/-- RibosomeAttachedState.step, projected to its attachment-site and
translation effects (the protein-growth calls act on external collaborators).
The site is released early — as a normal action, not an assertion — when it
is still held by this ribosome and enough mRNA has been translated; the
translation then advances by the (possibly reduced) rate times dt.
Modelled from the spec: Ribosome.advanceMessengerRnaTranslation is not under
src/; per the spec the translated length grows by the given amount and
translation completes on reaching the full transcript length. -/
def ribosomeAttachedStep (st : RibosomeStepState) (dt : ℚ) : RibosomeStepResult :=
  let site :=
    match st.attachmentSite with
    | some s =>
      if s.occupant = some st.ribosomeId ∧
          CLEAR_RNA_ATTACHMENT_LENGTH < st.lengthTranslated then
        (none : Option BoundSite)
      else some s
    | none => none
  let translationRate := ribosomeTranslationRate st.mRnaBeingSynthesized
  let advanced := translationRate * dt
  let newLength := st.lengthTranslated + advanced
  { attachmentSite := site
    lengthTranslated := newLength
    translationAdvanced := advanced
    detached := st.mRnaLength ≤ newLength }

/-- The outcome of one AttachedAndConformingState.step call: the updated
conformational-change amount (ramped at the fixed rate and clamped at 1) and
whether the machine moves on to the transcribing state. -/
structure ConformingStepResult where
  conformationalChangeAmount : ℚ
  transitionToTranscribing : Bool
deriving DecidableEq, Repr

/-- AttachedAndConformingState.step.  Its two opening assertions — the
attachment site is non-null and its occupant is this molecule — are modelled
as the error outcomes; the conformational-change rate constant lives in the
external GEEConstants module and is a parameter. -/
def attachedAndConformingStep (attachmentSite : Option BoundSite) (biomoleculeId : ℕ)
    (conformationalChangeAmount dt conformationalChangeRate : ℚ) :
    Except String ConformingStepResult :=
  match attachmentSite with
  | none => Except.error "assertion failed: attachment site is null"
  | some site =>
    if site.occupant = some biomoleculeId then
      let amount := min (conformationalChangeAmount + conformationalChangeRate * dt) 1
      Except.ok { conformationalChangeAmount := amount, transitionToTranscribing := amount = 1 }
    else Except.error "assertion failed: attachment site occupant is not this molecule"

/-- RNA_DESTRUCTION_RATE of MRnaDestroyerAttachedState, in picometers per
second. -/
def RNA_DESTRUCTION_RATE : ℚ := 750

/-- Minimum of MRNA_FRAGMENT_LENGTH_RANGE, in picometers. -/
def MRNA_FRAGMENT_LENGTH_RANGE_MIN : ℚ := 100

/-- Maximum of MRNA_FRAGMENT_LENGTH_RANGE, in picometers. -/
def MRNA_FRAGMENT_LENGTH_RANGE_MAX : ℚ := 400

/-- The target length drawn for a new mRNA fragment: the range minimum plus
the injected uniform sample (phet.joist.random.nextDouble, a value in the
interval from 0 inclusive to 1 exclusive) times the range's length. -/
def targetFragmentLengthDraw (r : ℚ) : ℚ :=
  MRNA_FRAGMENT_LENGTH_RANGE_MIN +
    r * (MRNA_FRAGMENT_LENGTH_RANGE_MAX - MRNA_FRAGMENT_LENGTH_RANGE_MIN)

/-- The mRNA fragment a destroyer is currently growing: its accumulated
length and its drawn target length. -/
structure Fragment where
  length : ℚ
  target : ℚ
deriving DecidableEq, Repr

/-- The state read and written by MRnaDestroyerAttachedState.stepInTime. -/
structure DestroyerState where
  attachmentSite : Option BoundSite
  biomoleculeId : ℕ
  fragment : Option Fragment
  mRnaRemainingLength : ℚ
deriving DecidableEq, Repr

/-- The outcome of one MRnaDestroyerAttachedState.stepInTime call: the
fragment still being grown (if any), the fragments released during the step,
the transcript length still to destroy, and whether destruction completed
(upon which the transcript is removed from the model and the destroyer
detaches). -/
structure DestroyerStepResult where
  fragment : Option Fragment
  releasedFragments : List Fragment
  mRnaRemainingLength : ℚ
  destructionComplete : Bool
deriving DecidableEq, Repr

/-- MRnaDestroyerAttachedState.stepInTime.  The two opening assertions are
modelled as error outcomes.  A fresh fragment starts at length zero
(MessengerRnaFragment is constructed empty) with a target drawn from the
fragment-length range using the injected uniform sample r; the fragment grows
by the destruction rate times dt and is released once its length reaches the
target.  Modelled from the spec: MRnaDestroyer.advanceMessengerRnaDestruction
is not under src/; per the spec the transcript is consumed at the fixed rate
until fully consumed. -/
def mRnaDestroyerAttachedStepInTime (st : DestroyerState) (r dt : ℚ) :
    Except String DestroyerStepResult :=
  match st.attachmentSite with
  | none => Except.error "assertion failed: attachment site is null"
  | some site =>
    if site.occupant = some st.biomoleculeId then
      let frag0 :=
        match st.fragment with
        | none => { length := 0, target := targetFragmentLengthDraw r : Fragment }
        | some f => f
      let frag1 : Fragment := { frag0 with length := frag0.length + RNA_DESTRUCTION_RATE * dt }
      let kept : Option Fragment :=
        if frag1.target ≤ frag1.length then none else some frag1
      let released : List Fragment :=
        if frag1.target ≤ frag1.length then [frag1] else []
      let remaining := st.mRnaRemainingLength - RNA_DESTRUCTION_RATE * dt
      if remaining ≤ 0 then
        Except.ok
          { fragment := none
            releasedFragments := released ++ kept.toList
            mRnaRemainingLength := remaining
            destructionComplete := true }
      else
        Except.ok
          { fragment := kept
            releasedFragments := released
            mRnaRemainingLength := remaining
            destructionComplete := false }
    else Except.error "assertion failed: attachment site occupant is not this molecule"

/-- Whether an Except-valued step completed without an assertion failure. -/
def exceptIsOk {α : Type} : Except String α → Bool
  | Except.ok _ => true
  | Except.error _ => false

/-- NOMINAL_TIME_STEP of ManualGeneExpressionModel: one frame at sixty frames
per second. -/
def NOMINAL_TIME_STEP : ℚ := 1 / 60

/-- MAX_TIME_STEP of ManualGeneExpressionModel: the largest time step the
model is known to handle well. -/
def MAX_TIME_STEP : ℚ := 10 * NOMINAL_TIME_STEP

/-- An entity advanced by ManualGeneExpressionModel.step: a mobile
biomolecule, a messenger RNA, or the DNA molecule. -/
inductive SteppedEntity where
  | mobileBiomolecule (id : ℕ)
  | messengerRna (id : ℕ)
  | dnaMolecule
deriving DecidableEq, Repr

/-- ManualGeneExpressionModel.step as the trace of step calls it issues: the
incoming dt is clamped to MAX_TIME_STEP, then every mobile biomolecule, then
every messenger RNA, then the DNA molecule is stepped with the clamped dt, in
that order. -/
def manualGeneExpressionModelStep (mobileBiomoleculeList messengerRnaList : List ℕ)
    (dt : ℚ) : List (SteppedEntity × ℚ) :=
  let dtClamped := min dt MAX_TIME_STEP
  (mobileBiomoleculeList.map fun i => (SteppedEntity.mobileBiomolecule i, dtClamped))
    ++ (messengerRnaList.map fun i => (SteppedEntity.messengerRna i, dtClamped))
    ++ [(SteppedEntity.dnaMolecule, dtClamped)]

/-- The objectCounts array of CellProteinSynthesisSimulator, with the indices
named after the constructor's comments (index 6 is the free ribosome count,
index 7 the mRNA-ribosome complex count). -/
structure ObjectCounts where
  geneCount : ℤ
  transcriptionFactorCount : ℤ
  polymeraseCount : ℤ
  geneTfComplexCount : ℤ
  geneTfPolymeraseCount : ℤ
  mRnaCount : ℤ
  ribosomeCount : ℤ
  mRnaRibosomeComplexCount : ℤ
  proteinCount : ℤ
deriving DecidableEq, Repr

/-- The objectCounts set up by the CellProteinSynthesisSimulator constructor:
fixed initial counts, with index 6 then overwritten by the ribosomeCount
constructor argument. -/
def initialObjectCounts (ribosomeCount : ℤ) : ObjectCounts :=
  { geneCount := 20
    transcriptionFactorCount := 2000
    polymeraseCount := 5000
    geneTfComplexCount := 0
    geneTfPolymeraseCount := 0
    mRnaCount := 0
    ribosomeCount := ribosomeCount
    mRnaRibosomeComplexCount := 0
    proteinCount := 0 }

/-- CellProteinSynthesisSimulator.conductReaction: the count updates of the
ten reaction channels; the default switch case (a development-time assertion)
leaves the counts unchanged. -/
def conductReaction (mu : ℕ) (c : ObjectCounts) : ObjectCounts :=
  match mu with
  | 0 => { c with geneCount := c.geneCount - 1
                  transcriptionFactorCount := c.transcriptionFactorCount - 1
                  geneTfComplexCount := c.geneTfComplexCount + 1 }
  | 1 => { c with geneCount := c.geneCount + 1
                  transcriptionFactorCount := c.transcriptionFactorCount + 1
                  geneTfComplexCount := c.geneTfComplexCount - 1 }
  | 2 => { c with geneTfComplexCount := c.geneTfComplexCount - 1
                  polymeraseCount := c.polymeraseCount - 1
                  geneTfPolymeraseCount := c.geneTfPolymeraseCount + 1 }
  | 3 => { c with geneTfComplexCount := c.geneTfComplexCount + 1
                  polymeraseCount := c.polymeraseCount + 1
                  geneTfPolymeraseCount := c.geneTfPolymeraseCount - 1 }
  | 4 => { c with geneCount := c.geneCount + 1
                  transcriptionFactorCount := c.transcriptionFactorCount + 1
                  polymeraseCount := c.polymeraseCount + 1
                  geneTfPolymeraseCount := c.geneTfPolymeraseCount - 1
                  mRnaCount := c.mRnaCount + 1 }
  | 5 => { c with mRnaCount := c.mRnaCount - 1
                  ribosomeCount := c.ribosomeCount - 1
                  mRnaRibosomeComplexCount := c.mRnaRibosomeComplexCount + 1 }
  | 6 => { c with mRnaCount := c.mRnaCount + 1
                  ribosomeCount := c.ribosomeCount + 1
                  mRnaRibosomeComplexCount := c.mRnaRibosomeComplexCount - 1 }
  | 7 => { c with ribosomeCount := c.ribosomeCount + 1
                  mRnaRibosomeComplexCount := c.mRnaRibosomeComplexCount - 1
                  proteinCount := c.proteinCount + 1 }
  | 8 => { c with proteinCount := c.proteinCount - 1 }
  | 9 => { c with mRnaCount := c.mRnaCount - 1 }
  | _ => c

/-- The epsilon side condition under which a remove splice loses exactly the
requested length: the residual is exactly zero or at least the comparison
epsilon. -/
def removeEpsSafe (s : Seg) (L : ℚ) : Prop :=
  s.len - L = 0 ∨ FLOATING_POINT_COMP_FACTOR ≤ s.len - L

/-- The epsilon side conditions under which FlatSegment.advance moves length
through the list without loss: every segment it shrinks keeps a residual that
is exactly zero or at least the comparison epsilon, and a not-quite-full
segment is either genuinely below capacity by more than the epsilon or
exactly full. -/
def advanceEpsSafe (cur : Seg) (after : List Seg) (L : ℚ) : Prop :=
  match after with
  | [] => removeEpsSafe cur (min L cur.len)
  | input :: _ =>
    if L < input.len then
      removeEpsSafe input L ∧
        (cur.len + L ≤ cur.capacity ∨ FLOATING_POINT_COMP_FACTOR < cur.capacity - cur.len
          ∨ cur.capacity - cur.len = 0)
    else removeEpsSafe cur (L - input.len)

/-- The epsilon side conditions under which FlatSegment.advanceAndRemove
removes exactly the requested length: the requested length does not exceed
what remains, and every shrunken segment keeps a residual that is exactly
zero or at least the comparison epsilon. -/
def advanceAndRemoveEpsSafe (cur : Seg) (after : List Seg) (L : ℚ) : Prop :=
  match after with
  | [] => L ≤ cur.len ∧ removeEpsSafe cur L
  | input :: _ =>
    if L < input.len then removeEpsSafe input L
    else removeEpsSafe cur (L - input.len)

/-- A concrete in-range unoccupied attachment site used in witness
scenarios. -/
def siteNearExample : AttachmentSite :=
  { location := (10, 0), affinity := 1, occupant := none, moleculeAttached := false }

/-- A second concrete in-range unoccupied attachment site, farther away but
with higher affinity. -/
def siteFarExample : AttachmentSite :=
  { location := (20, 0), affinity := 3, occupant := none, moleculeAttached := false }

/-- A concrete molecule holding a pending (attaching, not attached) claim on
a contested gene site in witness scenarios: it sits 400 units from the
site. -/
def incumbentExample : Occupant := { id := 7, position := (500, 0) }

/-- A concrete gene attachment site being held by incumbentExample while it
is still attaching; a proposer at the origin is 100 units away, strictly
closer than the incumbent. -/
def contestedSiteExample : AttachmentSite :=
  { location := (100, 0), affinity := 1, occupant := some incumbentExample,
    moleculeAttached := false }

/-- A concrete gene whose matching site is contestedSiteExample and which
accepts attachment. -/
def geneExample : Gene := { okToAttach := true, matchingSite := contestedSiteExample }

theorem sumLen_append (a b : List Seg) : sumLen (a ++ b) = sumLen a + sumLen b := by
  simp [sumLen]

theorem sumLen_segAddSplice (s : Seg) (L : ℚ) : sumLen (segAddSplice s L) = s.len + L := by
  rcases s with ⟨k, cap, l⟩
  cases k <;> simp [segAddSplice, sumLen, mkSquareSegment] <;> split_ifs <;>
    simp [sumLen] <;> ring

theorem sumLen_nil : sumLen ([] : List Seg) = 0 := by
  simp [sumLen]

theorem sumLen_cons (s : Seg) (l : List Seg) : sumLen (s :: l) = s.len + sumLen l := by
  simp [sumLen]


theorem sumLen_segRemoveSplice_of (s : Seg) (L : ℚ) (h : removeEpsSafe s L) :
    sumLen (segRemoveSplice s L) = s.len - L := by
  rcases h with h | h
  · rw [segRemoveSplice, if_pos (by rw [h]; norm_num [FLOATING_POINT_COMP_FACTOR])]
    simp [sumLen, h]
  · rw [segRemoveSplice, if_neg (by linarith)]
    simp [sumLen]

theorem sumLen_dropLast (before : List Seg) (output : Seg)
    (h : before.getLast? = some output) :
    sumLen before = sumLen before.dropLast + output.len := by
  induction before with
  | nil => simp at h
  | cons a l ih =>
    cases l with
    | nil =>
      simp [List.getLast?] at h
      simp [sumLen, h]
    | cons b m =>
      have h' : (b :: m).getLast? = some output := by
        simpa [List.getLast?_cons_cons] using h
      have := ih h'
      simp only [List.dropLast_cons₂]
      simp [sumLen] at this ⊢
      linarith

/-- C5: a FlatSegment.add call with remaining capacity C strictly between 0
and the added length L creates exactly one new successor segment inserted
immediately after the segment, leaves the first segment exactly at its
capacity, and the combined contained length of the resulting segments equals
the prior contained length plus L. -/
theorem flatSegmentAdd_split_correct (before after : List Seg) (s : Seg) (L : ℚ)
    (hkind : s.kind = SegKind.flat)
    (hC0 : 0 < s.capacity - s.len) (hCL : s.capacity - s.len < L) :
    flatSegmentAdd before s after L
      = before ++ ({ s with len := s.capacity }
          :: mkSquareSegment (L - (s.capacity - s.len)) :: after)
    ∧ sumLen (flatSegmentAdd before s after L) = sumLen (before ++ s :: after) + L
    ∧ (flatSegmentAdd before s after L).length = (before ++ s :: after).length + 1 := by
  have hcond : s.capacity < s.len + L := by linarith
  have hsplice : segAddSplice s L
      = [{ s with len := s.capacity }, mkSquareSegment (L - (s.capacity - s.len))] := by
    simp only [segAddSplice, hkind]
    rw [if_pos hcond]
  refine ⟨?_, ?_, ?_⟩
  · simp [flatSegmentAdd, hsplice]
  · rw [flatSegmentAdd, sumLen_append, sumLen_append, hsplice]
    have : sumLen (s :: after) = s.len + sumLen after := by simp [sumLen]
    simp [sumLen_append, sumLen, mkSquareSegment, this]
    ring
  · simp [flatSegmentAdd, hsplice]
    omega

theorem flatSegmentAdd_split_correct_witness :
    flatSegmentAdd [] { kind := SegKind.flat, capacity := 5, len := 2 } [] 10
      = [] ++ ({ kind := SegKind.flat, capacity := 5, len := 5 } :: mkSquareSegment (10 - (5 - 2)) :: [])
    ∧ sumLen (flatSegmentAdd [] { kind := SegKind.flat, capacity := 5, len := 2 } [] 10)
      = sumLen ([] ++ { kind := SegKind.flat, capacity := 5, len := 2 } :: []) + 10
    ∧ (flatSegmentAdd [] { kind := SegKind.flat, capacity := 5, len := 2 } [] 10).length
      = ([] ++ ({ kind := SegKind.flat, capacity := 5, len := 2 } : Seg) :: []).length + 1 :=
  flatSegmentAdd_split_correct [] [] { kind := SegKind.flat, capacity := 5, len := 2 } 10
    rfl (by norm_num) (by norm_num)



/-- C6 counterexample: FlatSegment.remove of 1 - 1e-8 from a segment of
contained length 1 leaves a residual below the comparison epsilon, so the
whole segment is deleted and the sum of contained lengths drops by 1, not by
the requested amount — the exact length-conservation invariant fails. -/
theorem flatSegmentRemove_drops_residual :
    sumLen (flatSegmentRemove [] { kind := SegKind.flat, capacity := 100, len := 1 } []
        (1 - 1 / 100000000))
      ≠ sumLen [{ kind := SegKind.flat, capacity := 100, len := 1 }] - (1 - 1 / 100000000) := by
  rw [flatSegmentRemove, segRemoveSplice,
    if_pos (by norm_num [FLOATING_POINT_COMP_FACTOR])]
  norm_num [sumLen]

/-- C6 as amended: add grows the sum of contained lengths by exactly the
added amount; remove, advance and advanceAndRemove change the sum by exactly
the requested amount (minus L, zero, minus L respectively) provided no
shrunken segment is left with a residual strictly between zero and the shared
comparison epsilon (such a residual is dropped together with its deleted
segment) and the requested length does not exceed the available length. -/
theorem segmentOperations_conserve_length (before : List Seg) (cur : Seg) (after : List Seg)
    (L : ℚ) :
    (sumLen (flatSegmentAdd before cur after L) = sumLen (before ++ cur :: after) + L)
    ∧ (removeEpsSafe cur L →
        sumLen (flatSegmentRemove before cur after L) = sumLen (before ++ cur :: after) - L)
    ∧ (advanceEpsSafe cur after L → ∀ l', flatSegmentAdvance before cur after L = some l' →
        sumLen l' = sumLen (before ++ cur :: after))
    ∧ (advanceAndRemoveEpsSafe cur after L →
        sumLen (flatSegmentAdvanceAndRemove before cur after L)
          = sumLen (before ++ cur :: after) - L) := by
  refine ⟨?_, ?_, ?_, ?_⟩
  · rw [flatSegmentAdd]
    simp only [sumLen_append, sumLen_cons, sumLen_nil, sumLen_segAddSplice]
    ring
  · intro h
    rw [flatSegmentRemove]
    simp only [sumLen_append]
    rw [sumLen_segRemoveSplice_of cur L h]
    simp only [sumLen_cons]
    ring
  · intro h l' hl'
    cases after with
    | nil =>
      simp only [advanceEpsSafe] at h
      cases hlast : before.getLast? with
      | none => rw [flatSegmentAdvance, hlast] at hl'; cases hl'
      | some output =>
        rw [flatSegmentAdvance, hlast] at hl'
        cases hl'
        simp only [sumLen_append, sumLen_cons, sumLen_nil, sumLen_segAddSplice]
        rw [sumLen_segRemoveSplice_of cur (min L cur.len) h,
          sumLen_dropLast before output hlast]
        ring
    | cons input rest =>
      simp only [advanceEpsSafe] at h
      by_cases hlen : L < input.len
      · rw [if_pos hlen] at h
        obtain ⟨hin, hcap⟩ := h
        rw [flatSegmentAdvance] at hl'
        rw [if_pos hlen] at hl'
        by_cases hfit : cur.len + L ≤ cur.capacity
        · rw [if_pos hfit] at hl'
          cases hl'
          simp only [sumLen_append, sumLen_cons, sumLen_nil, sumLen_segAddSplice]
          rw [sumLen_segRemoveSplice_of input L hin]
          ring
        · rw [if_neg hfit] at hl'
          rcases hcap with hcap | hcap | hcap
          · exact absurd hcap hfit
          · rw [if_pos (by simpa [segRemainingCapacity] using hcap)] at hl'
            cases hl'
            simp only [sumLen_append, sumLen_cons, sumLen_nil, sumLen_segAddSplice,
              segMaxOut, mkFlatSegment, segRemainingCapacity]
            rw [sumLen_segRemoveSplice_of input L hin]
            ring
          · rw [if_neg (by
              simp only [segRemainingCapacity, hcap]
              norm_num [FLOATING_POINT_COMP_FACTOR])] at hl'
            cases hlast : before.getLast? with
            | none => rw [hlast] at hl'; cases hl'
            | some output =>
              rw [hlast] at hl'
              cases hl'
              simp only [sumLen_append, sumLen_cons, sumLen_nil, sumLen_segAddSplice,
                segRemainingCapacity]
              rw [sumLen_segRemoveSplice_of input L hin,
                sumLen_dropLast before output hlast]
              have hc : cur.capacity - cur.len = 0 := hcap
              linarith
      · rw [if_neg hlen] at h
        rw [flatSegmentAdvance] at hl'
        rw [if_neg hlen] at hl'
        cases hlast : before.getLast? with
        | none => rw [hlast] at hl'; cases hl'
        | some output =>
          rw [hlast] at hl'
          cases hl'
          simp only [sumLen_append, sumLen_cons, sumLen_nil, sumLen_segAddSplice]
          rw [sumLen_segRemoveSplice_of cur (L - input.len) h,
            sumLen_segRemoveSplice_of input input.len (Or.inl (by ring)),
            sumLen_dropLast before output hlast]
          ring
  · intro h
    cases after with
    | nil =>
      simp only [advanceAndRemoveEpsSafe] at h
      obtain ⟨hle, hsafe⟩ := h
      rw [flatSegmentAdvanceAndRemove, min_eq_left hle]
      simp only [sumLen_append, sumLen_cons, sumLen_nil]
      rw [sumLen_segRemoveSplice_of cur L hsafe]
      ring
    | cons input rest =>
      simp only [advanceAndRemoveEpsSafe] at h
      by_cases hlen : L < input.len
      · rw [if_pos hlen] at h
        rw [flatSegmentAdvanceAndRemove, if_pos hlen]
        simp only [sumLen_append, sumLen_cons, sumLen_nil]
        rw [sumLen_segRemoveSplice_of input L h]
        ring
      · rw [if_neg hlen] at h
        rw [flatSegmentAdvanceAndRemove, if_neg hlen]
        simp only [sumLen_append, sumLen_cons, sumLen_nil]
        rw [sumLen_segRemoveSplice_of cur (L - input.len) h,
          sumLen_segRemoveSplice_of input input.len (Or.inl (by ring))]
        ring

theorem segmentOperations_conserve_length_witness :
    (removeEpsSafe { kind := SegKind.flat, capacity := 9, len := 7 } 3 →
      sumLen (flatSegmentRemove [] { kind := SegKind.flat, capacity := 9, len := 7 }
          [{ kind := SegKind.square, capacity := 0, len := 4 }] 3)
        = sumLen ([] ++ { kind := SegKind.flat, capacity := 9, len := 7 }
            :: [{ kind := SegKind.square, capacity := 0, len := 4 }]) - 3)
    ∧ removeEpsSafe { kind := SegKind.flat, capacity := 9, len := 7 } 3 :=
  ⟨(segmentOperations_conserve_length []
      { kind := SegKind.flat, capacity := 9, len := 7 }
      [{ kind := SegKind.square, capacity := 0, len := 4 }] 3).2.1,
    Or.inr (by norm_num [FLOATING_POINT_COMP_FACTOR])⟩

theorem sortSitesByScore_head (dist : DistFn) (p : ℚ × ℚ) :
    ∀ l : List AttachmentSite, l ≠ [] →
    ∃ b l1 l2, (sortSitesByScore dist p l).head? = some b ∧ l = l1 ++ b :: l2
      ∧ (∀ s ∈ l1, siteScore dist p s < siteScore dist p b)
      ∧ (∀ s ∈ l, siteScore dist p s ≤ siteScore dist p b) := by
  intro l
  induction l with
  | nil => intro h; exact absurd rfl h
  | cons x xs ih =>
    intro _
    cases xs with
    | nil =>
      refine ⟨x, [], [], ?_, rfl, ?_, ?_⟩
      · simp [sortSitesByScore, insertSiteSorted]
      · intro s hs; simp at hs
      · intro s hs; simp at hs; simp [hs]
    | cons y ys =>
      obtain ⟨c, l1, l2, hhead, hsplit, hlt, hle⟩ := ih (by simp)
      cases hs : sortSitesByScore dist p (y :: ys) with
      | nil => rw [hs] at hhead; simp at hhead
      | cons c' t =>
        rw [hs] at hhead
        simp at hhead
        subst hhead
        by_cases hx : siteScore dist p x < siteScore dist p c'
        · refine ⟨c', x :: l1, l2, ?_, by rw [hsplit, List.cons_append], ?_, ?_⟩
          · show (insertSiteSorted dist p x (sortSitesByScore dist p (y :: ys))).head?
              = some c'
            rw [hs]
            show (if siteScore dist p x < siteScore dist p c' then
                c' :: insertSiteSorted dist p x t else x :: c' :: t).head? = some c'
            rw [if_pos hx]
            rfl
          · intro s hsm
            rcases List.mem_cons.mp hsm with rfl | hsm
            · exact hx
            · exact hlt s hsm
          · intro s hsm
            rcases List.mem_cons.mp hsm with rfl | hsm
            · exact le_of_lt hx
            · exact hle s hsm
        · refine ⟨x, [], y :: ys, ?_, rfl, ?_, ?_⟩
          · show (insertSiteSorted dist p x (sortSitesByScore dist p (y :: ys))).head?
              = some x
            rw [hs]
            show (if siteScore dist p x < siteScore dist p c' then
                c' :: insertSiteSorted dist p x t else x :: c' :: t).head? = some x
            rw [if_neg hx]
            rfl
          · intro s hsm; simp at hsm
          · intro s hsm
            rcases List.mem_cons.mp hsm with rfl | hsm
            · exact le_refl _
            · exact le_trans (hle s hsm) (not_lt.mp hx)

/-- C1: whenever the candidate set that remains after filtering is non-empty,
considerProposalFromBiomolecule returns the site that maximizes affinity
divided by the distance from the requesting molecule's position to the site's
location (exponent 1) over all remaining candidates, and when two candidates
score equally the first-enumerated one is returned: every candidate
enumerated before the returned one scores strictly lower. -/
theorem considerProposal_selects_best (dist : DistFn) (pos : ℚ × ℚ) (maxD : ℚ)
    (bps : List ((ℚ × ℚ) × AttachmentSite)) (pursue : Bool) (genes : List Gene)
    (inBounds : AttachmentSite → Bool)
    (overlapping : AttachmentSite → List OverlappingMolecule)
    (hne : filteredCandidates dist pos maxD bps pursue genes inBounds overlapping ≠ [])
    (hpos : ∀ s ∈ filteredCandidates dist pos maxD bps pursue genes inBounds overlapping,
      0 < dist pos s.location) :
    ∃ best l1 l2,
      (considerProposalFromBiomolecule dist pos maxD bps pursue genes inBounds overlapping).1
        = some best
      ∧ filteredCandidates dist pos maxD bps pursue genes inBounds overlapping
          = l1 ++ best :: l2
      ∧ (∀ s ∈ l1, siteScore dist pos s < siteScore dist pos best)
      ∧ (∀ s ∈ filteredCandidates dist pos maxD bps pursue genes inBounds overlapping,
          siteScore dist pos s ≤ siteScore dist pos best) := by
  obtain ⟨b, l1, l2, hhead, hsplit, hlt, hle⟩ :=
    sortSitesByScore_head dist pos
      (filteredCandidates dist pos maxD bps pursue genes inBounds overlapping) hne
  refine ⟨b, l1, l2, ?_, hsplit, hlt, hle⟩
  rw [considerProposalFromBiomolecule]
  have hfe : (filteredCandidates dist pos maxD bps pursue genes inBounds overlapping).isEmpty
      = false := by
    cases hl : filteredCandidates dist pos maxD bps pursue genes inBounds overlapping with
    | nil => exact absurd hl hne
    | cons a l => simp [List.isEmpty]
  simp only [filteredCandidates] at hfe hhead
  simp [hfe, hhead]


theorem considerProposal_selects_best_witness :
    ∃ best,
      (considerProposalFromBiomolecule distX (0, 0) 400
          [((10, 0), siteNearExample), ((20, 0), siteFarExample)]
          false [] (fun _ => true) (fun _ => [])).1 = some best
      ∧ ∀ s ∈ filteredCandidates distX (0, 0) 400
          [((10, 0), siteNearExample), ((20, 0), siteFarExample)]
          false [] (fun _ => true) (fun _ => []),
          siteScore distX (0, 0) s ≤ siteScore distX (0, 0) best := by
  have hfc : filteredCandidates distX (0, 0) 400
      [((10, 0), siteNearExample), ((20, 0), siteFarExample)]
      false [] (fun _ => true) (fun _ => []) = [siteNearExample, siteFarExample] := by
    norm_num [filteredCandidates, proposalCandidates, inRangeUnoccupiedSites,
      eliminateInvalidAttachmentSites, distX, siteNearExample, siteFarExample]
  obtain ⟨best, l1, l2, h1, h2, h3, h4⟩ :=
    considerProposal_selects_best distX (0, 0) 400
      [((10, 0), siteNearExample), ((20, 0), siteFarExample)]
      false [] (fun _ => true) (fun _ => [])
      (by rw [hfc]; simp)
      (by
        rw [hfc]
        intro s hs
        rcases List.mem_cons.mp hs with rfl | hs
        · norm_num [distX, siteNearExample]
        · rcases List.mem_cons.mp hs with rfl | hs
          · norm_num [distX, siteFarExample]
          · simp at hs)
  exact ⟨best, h1, h4⟩

theorem genePursuitStep_append (dist : DistFn) (p : ℚ × ℚ)
    (acc : List AttachmentSite × List Occupant) (g : Gene) :
    ∃ s a, genePursuitStep dist p acc g = (acc.1 ++ s, acc.2 ++ a) := by
  by_cases hok : g.okToAttach = true
  · cases hocc : g.matchingSite.occupant with
    | none => exact ⟨[g.matchingSite], [], by simp [genePursuitStep, hok, hocc]⟩
    | some occ =>
      by_cases hatt : g.matchingSite.moleculeAttached = true
      · exact ⟨[], [], by simp [genePursuitStep, hok, hocc, hatt]⟩
      · by_cases hd : dist p g.matchingSite.location
            < dist occ.position g.matchingSite.location
        · exact ⟨[g.matchingSite], [occ], by simp [genePursuitStep, hok, hocc, hatt, hd]⟩
        · exact ⟨[], [], by simp [genePursuitStep, hok, hocc, hatt, hd]⟩
  · exact ⟨[], [], by simp [genePursuitStep, hok]⟩

theorem genePursuitFoldl_append (dist : DistFn) (p : ℚ × ℚ) (l : List Gene) :
    ∀ acc, ∃ s a, l.foldl (genePursuitStep dist p) acc = (acc.1 ++ s, acc.2 ++ a) := by
  induction l with
  | nil => intro acc; exact ⟨[], [], by simp⟩
  | cons g gs ih =>
    intro acc
    obtain ⟨s0, a0, h0⟩ := genePursuitStep_append dist p acc g
    obtain ⟨s1, a1, h1⟩ := ih (genePursuitStep dist p acc g)
    exact ⟨s0 ++ s1, a0 ++ a1, by rw [List.foldl_cons, h1, h0]; simp⟩

theorem considerProposal_aborted_eq (dist : DistFn) (pos : ℚ × ℚ) (maxD : ℚ)
    (bps : List ((ℚ × ℚ) × AttachmentSite)) (pursue : Bool) (genes : List Gene)
    (inBounds : AttachmentSite → Bool)
    (overlapping : AttachmentSite → List OverlappingMolecule) :
    (considerProposalFromBiomolecule dist pos maxD bps pursue genes inBounds overlapping).2
      = (proposalCandidates dist pos maxD bps pursue genes).2 := by
  rw [considerProposalFromBiomolecule]
  cases h : (eliminateInvalidAttachmentSites inBounds overlapping
      (proposalCandidates dist pos maxD bps pursue genes).1).isEmpty
  · simp [h]
  · simp [h]

theorem genePursuitStep_preempts (dist : DistFn) (p : ℚ × ℚ)
    (acc : List AttachmentSite × List Occupant) (g : Gene) (occ : Occupant)
    (hok : g.okToAttach = true) (hocc : g.matchingSite.occupant = some occ)
    (hatt : g.matchingSite.moleculeAttached = false)
    (hcloser : dist p g.matchingSite.location < dist occ.position g.matchingSite.location) :
    genePursuitStep dist p acc g = (acc.1 ++ [g.matchingSite], acc.2 ++ [occ]) := by
  simp [genePursuitStep, hok, hocc, hatt, hcloser]

/-- C2 as amended: pre-emption is conditional.  When molecule B proposes
while the strand is configured to pursue attachments and no unoccupied site
lies within attach range, and a gene that accepts B has its matching site S
held by an incumbent A that is still attaching (not yet attached) with B
strictly closer to S than A, then A is forced to abort its pending attachment
(it appears in the aborted list of that resolution step) and S joins the
candidate set; S is actually returned to B only if it additionally survives
the bounds/overlap filter and maximizes the affinity-over-distance score. -/
theorem considerProposal_preemption (dist : DistFn) (pos : ℚ × ℚ) (maxD : ℚ)
    (bps : List ((ℚ × ℚ) × AttachmentSite)) (genes : List Gene)
    (inBounds : AttachmentSite → Bool)
    (overlapping : AttachmentSite → List OverlappingMolecule)
    (g : Gene) (occ : Occupant)
    (hinrange : inRangeUnoccupiedSites dist pos maxD bps = [])
    (hg : g ∈ genes) (hok : g.okToAttach = true)
    (hocc : g.matchingSite.occupant = some occ)
    (hatt : g.matchingSite.moleculeAttached = false)
    (hcloser : dist pos g.matchingSite.location
      < dist occ.position g.matchingSite.location) :
    occ ∈ (considerProposalFromBiomolecule dist pos maxD bps true genes
        inBounds overlapping).2
    ∧ g.matchingSite ∈ (proposalCandidates dist pos maxD bps true genes).1 := by
  obtain ⟨gs1, gs2, rfl⟩ := List.append_of_mem hg
  have hfold : proposalCandidates dist pos maxD bps true (gs1 ++ g :: gs2)
      = (gs1 ++ g :: gs2).foldl (genePursuitStep dist pos) ([], []) := by
    rw [proposalCandidates, hinrange]
    simp
  obtain ⟨s1, a1, h1⟩ := genePursuitFoldl_append dist pos gs1 (([], []) :
    List AttachmentSite × List Occupant)
  obtain ⟨s2, a2, h2⟩ := genePursuitFoldl_append dist pos gs2
    (genePursuitStep dist pos (gs1.foldl (genePursuitStep dist pos) ([], [])) g)
  have hstep := genePursuitStep_preempts dist pos
    (gs1.foldl (genePursuitStep dist pos) ([], [])) g occ hok hocc hatt hcloser
  have hall : proposalCandidates dist pos maxD bps true (gs1 ++ g :: gs2)
      = ((s1 ++ [g.matchingSite]) ++ s2, (a1 ++ [occ]) ++ a2) := by
    rw [hfold, List.foldl_append, List.foldl_cons, h2, hstep, h1]
    simp
  constructor
  · rw [considerProposal_aborted_eq, hall]
    simp
  · rw [hall]
    simp

theorem considerProposal_preemption_witness :
    incumbentExample ∈ (considerProposalFromBiomolecule distX (0, 0) 400 [] true
        [geneExample] (fun _ => true) (fun _ => [])).2
    ∧ geneExample.matchingSite
        ∈ (proposalCandidates distX (0, 0) 400 [] true [geneExample]).1 :=
  considerProposal_preemption distX (0, 0) 400 [] [geneExample]
    (fun _ => true) (fun _ => []) geneExample incumbentExample
    rfl (by simp) rfl rfl rfl
    (by norm_num [distX, geneExample, contestedSiteExample, incumbentExample])

/-- C2 counterexample: molecule B at the origin proposes while the gene site
at x = 100 is held by an incumbent that is still attaching and sits at
x = 500, so B is strictly closer (100 versus 400); yet, because an unoccupied
site lies within attach range, the resolution step aborts nobody (the aborted
list is empty) and returns the in-range site rather than reassigning the
contested gene site — the incumbent is not forced back to the free-wandering
state. -/
theorem considerProposal_no_preemption_counterexample :
    (considerProposalFromBiomolecule distX (0, 0) 400 [((10, 0), siteNearExample)] true
        [geneExample] (fun _ => true) (fun _ => [])).2 = []
    ∧ (considerProposalFromBiomolecule distX (0, 0) 400 [((10, 0), siteNearExample)] true
        [geneExample] (fun _ => true) (fun _ => [])).1 = some siteNearExample := by
  norm_num [considerProposalFromBiomolecule, proposalCandidates, inRangeUnoccupiedSites,
    eliminateInvalidAttachmentSites, sortSitesByScore, insertSiteSorted, siteScore,
    distX, siteNearExample, geneExample, contestedSiteExample, incumbentExample]

/-- C3: when no eligible attachment site remains after the in-range
enumeration of unoccupied sites, the optional gene-site pursuit, and the
elimination of sites that would leave the molecule out of bounds or
overlapping a DNA-attached molecule, considerProposalFromBiomolecule returns
no site (none), the expected non-error outcome; the resolver assigns nothing
to the requesting molecule, which stays unattached. -/
theorem considerProposal_returns_none (dist : DistFn) (pos : ℚ × ℚ) (maxD : ℚ)
    (bps : List ((ℚ × ℚ) × AttachmentSite)) (pursue : Bool) (genes : List Gene)
    (inBounds : AttachmentSite → Bool)
    (overlapping : AttachmentSite → List OverlappingMolecule)
    (h : filteredCandidates dist pos maxD bps pursue genes inBounds overlapping = []) :
    (considerProposalFromBiomolecule dist pos maxD bps pursue genes
      inBounds overlapping).1 = none := by
  rw [considerProposalFromBiomolecule]
  rw [filteredCandidates] at h
  simp [h]

theorem considerProposal_returns_none_witness :
    (considerProposalFromBiomolecule distX (0, 0) 400 [] false []
      (fun _ => true) (fun _ => [])).1 = none :=
  considerProposal_returns_none distX (0, 0) 400 [] false []
    (fun _ => true) (fun _ => []) rfl

/-- C4 counterexample: with the transcript still being actively synthesized,
one second of RibosomeAttachedState.step advances translation by 300
picometers — the fixed rate scaled by 0.4 — and not by half the fixed rate,
which would be 375 picometers. -/
theorem ribosomeAttachedStep_not_half_rate :
    (ribosomeAttachedStep
        ⟨none, 0, 0, 10000, true⟩ 1).translationAdvanced = 300
    ∧ (300 : ℚ) ≠ RNA_TRANSLATION_RATE / 2 * 1 := by
  constructor
  · norm_num [ribosomeAttachedStep, ribosomeTranslationRate, RNA_TRANSLATION_RATE]
  · norm_num [RNA_TRANSLATION_RATE]

/-- C4 as amended: in every step of the ribosome's attached state, the
translation of the mRNA advances by 0.4 times the fixed translation rate
(300 picometers per second) times dt while the mRNA is still being actively
synthesized, and by the full fixed rate (750 picometers per second) times dt
otherwise. -/
theorem ribosomeAttachedStep_rate (st : RibosomeStepState) (dt : ℚ) :
    (ribosomeAttachedStep st dt).translationAdvanced
      = (if st.mRnaBeingSynthesized then 300 else 750) * dt := by
  cases h : st.mRnaBeingSynthesized <;>
    norm_num [ribosomeAttachedStep, ribosomeTranslationRate, RNA_TRANSLATION_RATE, h]

/-- C7 counterexample: the polymerase conforming step and the mRNA destroyer
step fail their opening assertion on a null attachment site, but the
ribosome's attached step does not verify the site at all — with a null site
it proceeds normally, advancing translation by the full rate. -/
theorem ribosomeStep_lacks_site_assertion :
    ribosomeAttachedStep ⟨none, 1, 0, 1000, false⟩ 1
      = { attachmentSite := none, lengthTranslated := 750, translationAdvanced := 750,
          detached := false }
    ∧ attachedAndConformingStep none 1 0 1 1
        = Except.error "assertion failed: attachment site is null"
    ∧ mRnaDestroyerAttachedStepInTime ⟨none, 1, none, 1000⟩ 0 1
        = Except.error "assertion failed: attachment site is null" := by
  refine ⟨?_, rfl, rfl⟩
  norm_num [ribosomeAttachedStep, ribosomeTranslationRate, RNA_TRANSLATION_RATE,
    CLEAR_RNA_ATTACHMENT_LENGTH]

/-- C7 as amended: the polymerase conforming state and the mRNA destroyer
attached state step functions first verify, as fatal assertions, that the
attachment site is non-null and that its occupant is the stepping molecule —
they succeed exactly when both hold; the ribosome attached state performs no
such check and treats a null site as a normal condition (its step advances
translation regardless). -/
theorem boundStateAssertions (site : Option BoundSite) (bioId : ℕ)
    (amount dt rate : ℚ) (st : DestroyerState) (r dt' : ℚ)
    (rst : RibosomeStepState) (dt'' : ℚ) :
    (exceptIsOk (attachedAndConformingStep site bioId amount dt rate) = true
      ↔ ∃ s, site = some s ∧ s.occupant = some bioId)
    ∧ (exceptIsOk (mRnaDestroyerAttachedStepInTime st r dt') = true
      ↔ ∃ s, st.attachmentSite = some s ∧ s.occupant = some st.biomoleculeId)
    ∧ (ribosomeAttachedStep { rst with attachmentSite := none } dt'').translationAdvanced
        = ribosomeTranslationRate rst.mRnaBeingSynthesized * dt'' := by
  refine ⟨?_, ?_, ?_⟩
  · cases site with
    | none => simp [attachedAndConformingStep, exceptIsOk]
    | some s =>
      by_cases h : s.occupant = some bioId
      · simp [attachedAndConformingStep, h, exceptIsOk]
      · simp [attachedAndConformingStep, h, exceptIsOk]
  · cases hsite : st.attachmentSite with
    | none => simp [mRnaDestroyerAttachedStepInTime, hsite, exceptIsOk]
    | some s =>
      by_cases h : s.occupant = some st.biomoleculeId
      · rw [mRnaDestroyerAttachedStepInTime, hsite]
        dsimp only
        rw [if_pos h]
        constructor
        · intro _; exact ⟨s, rfl, h⟩
        · intro _
          split_ifs <;> simp [exceptIsOk]
      · simp [mRnaDestroyerAttachedStepInTime, hsite, h, exceptIsOk]
  · simp [ribosomeAttachedStep]

/-- C9: in the strand destroyer's attached step, the target length of a
freshly started mRNA fragment is the range minimum plus the injected uniform
sample times the range length — so for a sample in the unit interval it lies
in the fixed 100-to-400-picometer fragment-length range — and the fragment
being grown is released exactly when its accumulated length reaches its
target (while destruction is still in progress; on completion any remainder
is also released). -/
theorem destroyerFragmentBehavior (st : DestroyerState) (site : BoundSite) (f : Fragment)
    (r dt : ℚ)
    (hsite : st.attachmentSite = some site)
    (hocc : site.occupant = some st.biomoleculeId) :
    (0 ≤ r → r < 1 →
      MRNA_FRAGMENT_LENGTH_RANGE_MIN ≤ targetFragmentLengthDraw r
      ∧ targetFragmentLengthDraw r < MRNA_FRAGMENT_LENGTH_RANGE_MAX)
    ∧ (st.fragment = some f → ¬ st.mRnaRemainingLength - RNA_DESTRUCTION_RATE * dt ≤ 0 →
        ∃ res, mRnaDestroyerAttachedStepInTime st r dt = Except.ok res
          ∧ (res.fragment = none ↔ f.target ≤ f.length + RNA_DESTRUCTION_RATE * dt)
          ∧ (f.target ≤ f.length + RNA_DESTRUCTION_RATE * dt →
              res.releasedFragments
                = [{ length := f.length + RNA_DESTRUCTION_RATE * dt, target := f.target }]))
    ∧ (st.fragment = none → ¬ st.mRnaRemainingLength - RNA_DESTRUCTION_RATE * dt ≤ 0 →
        ∃ res, mRnaDestroyerAttachedStepInTime st r dt = Except.ok res
          ∧ ((res.fragment = some ⟨RNA_DESTRUCTION_RATE * dt, targetFragmentLengthDraw r⟩
              ∧ res.releasedFragments = [])
            ∨ (res.fragment = none
              ∧ res.releasedFragments
                  = [⟨RNA_DESTRUCTION_RATE * dt, targetFragmentLengthDraw r⟩]))) := by
  refine ⟨?_, ?_, ?_⟩
  · intro h0 h1
    rw [targetFragmentLengthDraw, MRNA_FRAGMENT_LENGTH_RANGE_MIN,
      MRNA_FRAGMENT_LENGTH_RANGE_MAX]
    constructor <;> nlinarith
  · intro hfrag hrem
    rw [mRnaDestroyerAttachedStepInTime, hsite]
    dsimp only
    rw [if_pos hocc, hfrag]
    dsimp only
    rw [if_neg hrem]
    refine ⟨_, rfl, ?_, ?_⟩
    · by_cases hrel : f.target ≤ f.length + RNA_DESTRUCTION_RATE * dt
      · simp [hrel]
      · simp [hrel]
    · intro hrel
      simp [hrel]
  · intro hfrag hrem
    rw [mRnaDestroyerAttachedStepInTime, hsite]
    dsimp only
    rw [if_pos hocc, hfrag]
    dsimp only
    rw [if_neg hrem]
    refine ⟨_, rfl, ?_⟩
    by_cases hrel : targetFragmentLengthDraw r ≤ 0 + RNA_DESTRUCTION_RATE * dt
    · right
      simp [hrel]
      linarith [hrel]
    · left
      simp [hrel]
      linarith [hrel]

theorem destroyerFragmentBehavior_witness :
    ((0 : ℚ) ≤ 1 / 2 → (1 : ℚ) / 2 < 1 →
      MRNA_FRAGMENT_LENGTH_RANGE_MIN ≤ targetFragmentLengthDraw (1 / 2)
      ∧ targetFragmentLengthDraw (1 / 2) < MRNA_FRAGMENT_LENGTH_RANGE_MAX)
    ∧ ((⟨some ⟨some 3⟩, 3, some ⟨50, 200⟩, 5000⟩ : DestroyerState).fragment
          = some ⟨50, 200⟩ →
        ¬ (5000 : ℚ) - RNA_DESTRUCTION_RATE * 1 ≤ 0 →
        ∃ res, mRnaDestroyerAttachedStepInTime ⟨some ⟨some 3⟩, 3, some ⟨50, 200⟩, 5000⟩
            (1 / 2) 1 = Except.ok res
          ∧ (res.fragment = none
              ↔ (200 : ℚ) ≤ 50 + RNA_DESTRUCTION_RATE * 1)
          ∧ ((200 : ℚ) ≤ 50 + RNA_DESTRUCTION_RATE * 1 →
              res.releasedFragments
                = [{ length := 50 + RNA_DESTRUCTION_RATE * 1, target := 200 }]))
    ∧ ((⟨some ⟨some 3⟩, 3, some ⟨50, 200⟩, 5000⟩ : DestroyerState).fragment = none →
        ¬ (5000 : ℚ) - RNA_DESTRUCTION_RATE * 1 ≤ 0 →
        ∃ res, mRnaDestroyerAttachedStepInTime ⟨some ⟨some 3⟩, 3, some ⟨50, 200⟩, 5000⟩
            (1 / 2) 1 = Except.ok res
          ∧ ((res.fragment = some ⟨RNA_DESTRUCTION_RATE * 1, targetFragmentLengthDraw (1 / 2)⟩
              ∧ res.releasedFragments = [])
            ∨ (res.fragment = none
              ∧ res.releasedFragments
                  = [⟨RNA_DESTRUCTION_RATE * 1, targetFragmentLengthDraw (1 / 2)⟩]))) :=
  destroyerFragmentBehavior ⟨some ⟨some 3⟩, 3, some ⟨50, 200⟩, 5000⟩ ⟨some 3⟩ ⟨50, 200⟩
    (1 / 2) 1 rfl rfl

/-- C8: one frame of ManualGeneExpressionModel.step advances, with the single
time step clamped to MAX_TIME_STEP, first every mobile biomolecule, then
every messenger RNA, then the DNA molecule, in that order; with distinct
molecules each entity is stepped exactly once. -/
theorem manualGeneExpressionModelStep_order (mobiles mrnas : List ℕ) (dt : ℚ) :
    (manualGeneExpressionModelStep mobiles mrnas dt).map Prod.fst
      = mobiles.map SteppedEntity.mobileBiomolecule
        ++ mrnas.map SteppedEntity.messengerRna ++ [SteppedEntity.dnaMolecule]
    ∧ (∀ p ∈ manualGeneExpressionModelStep mobiles mrnas dt, p.2 = min dt MAX_TIME_STEP)
    ∧ (mobiles.Nodup → mrnas.Nodup →
        ((manualGeneExpressionModelStep mobiles mrnas dt).map Prod.fst).Nodup) := by
  refine ⟨?_, ?_, ?_⟩
  · simp [manualGeneExpressionModelStep, Function.comp_def]
  · intro p hp
    rw [manualGeneExpressionModelStep] at hp
    simp only [List.mem_append, List.mem_map, List.mem_singleton] at hp
    rcases hp with (⟨i, _, rfl⟩ | ⟨i, _, rfl⟩) | rfl <;> rfl
  · intro hm hr
    have hmap : (manualGeneExpressionModelStep mobiles mrnas dt).map Prod.fst
        = mobiles.map SteppedEntity.mobileBiomolecule
          ++ mrnas.map SteppedEntity.messengerRna ++ [SteppedEntity.dnaMolecule] := by
      simp [manualGeneExpressionModelStep, Function.comp_def]
    rw [hmap, List.append_assoc]
    refine List.Nodup.append ?_ ?_ ?_
    · exact hm.map (fun a b h => by simpa using h)
    · refine List.Nodup.append ?_ (List.nodup_singleton _) ?_
      · exact hr.map (fun a b h => by simpa using h)
      · intro x hx hy
        simp only [List.mem_singleton] at hy
        subst hy
        simp at hx
    · intro x hx hy
      simp only [List.mem_map] at hx
      obtain ⟨i, _, rfl⟩ := hx
      simp at hy

theorem manualGeneExpressionModelStep_order_witness :
    (manualGeneExpressionModelStep [0, 1] [2] 1).map Prod.fst
      = [0, 1].map SteppedEntity.mobileBiomolecule
        ++ [2].map SteppedEntity.messengerRna ++ [SteppedEntity.dnaMolecule]
    ∧ (∀ p ∈ manualGeneExpressionModelStep [0, 1] [2] 1, p.2 = min 1 MAX_TIME_STEP)
    ∧ (([0, 1] : List ℕ).Nodup → ([2] : List ℕ).Nodup →
        ((manualGeneExpressionModelStep [0, 1] [2] 1).map Prod.fst).Nodup) :=
  manualGeneExpressionModelStep_order [0, 1] [2] 1

/-- C10: every reaction index handled by conductReaction leaves the sum of
the free ribosome count and the mRNA-ribosome complex count unchanged, so
the total ribosome count fixed at construction is an invariant of the
whole-cell stochastic simulator under any sequence of reactions. -/
theorem conductReaction_ribosome_invariant (ribosomeCount : ℤ) (mus : List ℕ) :
    (∀ (mu : ℕ) (c : ObjectCounts),
      (conductReaction mu c).ribosomeCount + (conductReaction mu c).mRnaRibosomeComplexCount
        = c.ribosomeCount + c.mRnaRibosomeComplexCount)
    ∧ (mus.foldl (fun c mu => conductReaction mu c)
          (initialObjectCounts ribosomeCount)).ribosomeCount
        + (mus.foldl (fun c mu => conductReaction mu c)
            (initialObjectCounts ribosomeCount)).mRnaRibosomeComplexCount
        = ribosomeCount := by
  have hstep : ∀ (mu : ℕ) (c : ObjectCounts),
      (conductReaction mu c).ribosomeCount + (conductReaction mu c).mRnaRibosomeComplexCount
        = c.ribosomeCount + c.mRnaRibosomeComplexCount := by
    intro mu c
    rcases mu with _ | _ | _ | _ | _ | _ | _ | _ | _ | _ | mu <;>
      simp [conductReaction]
  have hfold : ∀ (l : List ℕ) (c : ObjectCounts),
      (l.foldl (fun c mu => conductReaction mu c) c).ribosomeCount
        + (l.foldl (fun c mu => conductReaction mu c) c).mRnaRibosomeComplexCount
        = c.ribosomeCount + c.mRnaRibosomeComplexCount := by
    intro l
    induction l with
    | nil => intro c; rfl
    | cons mu l ih =>
      intro c
      rw [List.foldl_cons, ih]
      exact hstep mu c
  refine ⟨hstep, ?_⟩
  rw [hfold]
  simp [initialObjectCounts]
